import Mathlib

/-!
Verification of the Gainhound remediation pipeline
(`scripts/reencode_gain.py`, `scripts/force_plex_analyze.py`).

The ledger (`/data/processed.list`) is modelled as a list of raw line
strings.  The pipeline's side effects (subprocess invocations, file
replacement, ledger compaction, lock acquisition) are modelled as an
explicit event trace together with explicit state passing.  Gain values
are idealised as rationals; the decimal parsers below model Python's
`float`/`int` conversions on the ledger's decimal syntax.  All string
primitives are implemented by structural recursion on character lists so
that every definition evaluates by kernel reduction.
-/

namespace Gainhound

/-! ### String primitives (models of the Python string operations used) -/

/-- Python `s.split(sep)` for a single-character separator: the list of
chunks between occurrences of `sep`; splitting the empty string yields
one empty chunk, matching Python. -/
def splitChar (sep : Char) : List Char → List (List Char)
  | [] => [[]]
  | c :: rest =>
    let r := splitChar sep rest
    if c = sep then [] :: r
    else
      match r with
      | [] => [[c]]
      | f :: fs => (c :: f) :: fs

/-- Python `line.rstrip("\n")`: drop every trailing newline character. -/
def rstripNl (s : String) : String :=
  String.mk ((s.toList.reverse.dropWhile (fun c => c = '\n')).reverse)

/-- `line.rstrip("\n").split("\t")`: the tab-separated fields of a ledger line. -/
def fields (line : String) : List String :=
  (splitChar '\t' (rstripNl line).toList).map String.mk

/-- Python `s.strip()` with no argument: drop surrounding whitespace. -/
def pyStrip (s : String) : String :=
  String.mk (((s.toList.dropWhile Char.isWhitespace).reverse.dropWhile
    Char.isWhitespace).reverse)

/-- Python `s.lower()` on the ASCII paths the ledger holds. -/
def pyLower (s : String) : String :=
  String.mk (s.toList.map Char.toLower)

/-- Python `s.endswith(suffix)`. -/
def pyEndsWith (s suffix : String) : Bool :=
  suffix.toList.isSuffixOf s.toList

/-- Python `s.startswith(pre)`. -/
def pyStartsWith (s pre : String) : Bool :=
  pre.toList.isPrefixOf s.toList

/-! ### Numeric parsing (models of Python `float` / `int` conversion) -/

/-- Value of a list of decimal digit characters (most significant first). -/
def digitsToNat (cs : List Char) : Nat :=
  cs.foldl (fun a c => 10 * a + (c.toNat - 48)) 0

/-- Unsigned decimal numeral, optionally with a fractional part
(`"6"`, `"6.2"`, `"6."`, `".2"`); `none` on anything else. -/
def parseUnsigned (cs : List Char) : Option ℚ :=
  let ip := cs.takeWhile Char.isDigit
  let rest := cs.dropWhile Char.isDigit
  match rest with
  | [] => if ip.isEmpty then none else some (mkRat (digitsToNat ip) 1)
  | '.' :: fp =>
    if fp.all Char.isDigit && !(ip.isEmpty && fp.isEmpty) then
      some (mkRat (digitsToNat ip * 10 ^ fp.length + digitsToNat fp) (10 ^ fp.length))
    else none
  | _ => none

/-- Model of Python `float(s)` on the ledger's decimal gain syntax:
optional surrounding whitespace, optional sign, decimal numeral.
Returns `none` where Python raises `ValueError`. -/
def parseFloat (s : String) : Option ℚ :=
  match (pyStrip s).toList with
  | [] => none
  | '-' :: rest => (parseUnsigned rest).map Neg.neg
  | '+' :: rest => parseUnsigned rest
  | cs => parseUnsigned cs

/-- Model of Python `int(s)`: optional surrounding whitespace, optional
sign, decimal digits only.  Returns `none` where Python raises `ValueError`. -/
def parseIntPy (s : String) : Option Int :=
  match (pyStrip s).toList with
  | [] => none
  | '-' :: rest =>
    if !rest.isEmpty && rest.all Char.isDigit then some (-(digitsToNat rest : Int)) else none
  | '+' :: rest =>
    if !rest.isEmpty && rest.all Char.isDigit then some (digitsToNat rest : Int) else none
  | cs =>
    if cs.all Char.isDigit then some (digitsToNat cs : Int) else none

/-! ### Ledger store (reencode_gain.py) -/

/-- The per-line keep decision of `remove_from_processed_list`
(reencode_gain.py, lines 129–138): a line splitting into exactly three
tab-separated fields whose second field equals `song_path` is dropped;
every other line (well-formed with a different path, or malformed) is
kept. -/
def keepLine (song_path : String) (line : String) : Bool :=
  match fields line with
  | [_ts, pth, _gain] => pth != song_path
  | _ => true

/-- `remove_from_processed_list` (reencode_gain.py, lines 115–144), as the
pure transformation it performs on the ledger's lines: kept lines are
written back verbatim, in order. -/
def remove_from_processed_list (song_path : String) (lines : List String) : List String :=
  lines.filter (keepLine song_path)

/-- `list_candidates_from_processed` (reencode_gain.py, lines 173–193):
keep `(path, gain)` for every line with exactly three fields whose gain
field parses and satisfies `abs(gain) >= threshold`, and whose path,
lowercased, ends in `".mp3"`; in ledger order. -/
def list_candidates_from_processed : List String → ℚ → List (String × ℚ)
  | [], _ => []
  | line :: rest, threshold =>
    match fields line with
    | [_ts, path, gainStr] =>
      match parseFloat gainStr with
      | some gain =>
        if threshold ≤ |gain| && pyEndsWith (pyLower path) ".mp3" then
          (path, gain) :: list_candidates_from_processed rest threshold
        else
          list_candidates_from_processed rest threshold
      | none => list_candidates_from_processed rest threshold
    | _ => list_candidates_from_processed rest threshold

/-! ### Atomic file replacement (`safe_replace`, reencode_gain.py lines 91–106)

The filesystem is modelled as a partial map from paths to contents. -/

/-- Filesystem state: path → content. -/
def Fs : Type := String → Option String

/-- `os.replace(src, dst)`: atomically move `src` onto `dst`. -/
def osReplace (fs : Fs) (src dst : String) : Fs :=
  fun p => if p = dst then fs src else if p = src then none else fs p

/-- `shutil.copy2(src, dst)`: copy `src`'s content to `dst`. -/
def copy2 (fs : Fs) (src dst : String) : Fs :=
  fun p => if p = dst then fs src else fs p

/-- `os.remove(path)`. -/
def osRemove (fs : Fs) (path : String) : Fs :=
  fun p => if p = path then none else fs p

/-- `os.path.basename(p)`: everything after the last slash. -/
def basename (p : String) : String :=
  String.mk ((p.toList.reverse.takeWhile (fun c => c ≠ '/')).reverse)

/-- `os.path.dirname(p)`: everything up to the last slash, with trailing
slashes stripped unless the prefix is all slashes (posixpath semantics). -/
def dirname (p : String) : String :=
  let head := (p.toList.reverse.dropWhile (fun c => c ≠ '/')).reverse
  if head.isEmpty || head.all (fun c => c = '/') then String.mk head
  else String.mk ((head.reverse.dropWhile (fun c => c = '/')).reverse)

/-- `os.path.join(a, b)` for a relative `b`. -/
def pathJoin (a b : String) : String :=
  if pyEndsWith a "/" then a ++ b else a ++ "/" ++ b

/-- The sibling temp name `safe_replace` uses on the EXDEV fallback path:
`os.path.join(dst_dir, f".swap.{basename}.tmp")` with
`dst_dir = dirname(dst_final) or "."`. -/
def altTmpName (dst_final : String) : String :=
  let dst_dir := if dirname dst_final = "" then "." else dirname dst_final
  pathJoin dst_dir (".swap." ++ basename dst_final ++ ".tmp")

/-- `safe_replace`, primary path: the plain `os.replace(src_tmp, dst_final)`. -/
def safe_replace_primary (fs : Fs) (src_tmp dst_final : String) : Fs :=
  osReplace fs src_tmp dst_final

/-- `safe_replace`, EXDEV fallback path: copy to the sibling temp name,
atomically rename it into place, then remove the original temp. -/
def safe_replace_exdev (fs : Fs) (src_tmp dst_final : String) : Fs :=
  let alt := altTmpName dst_final
  osRemove (osReplace (copy2 fs src_tmp alt) alt dst_final) src_tmp

/-! ### The re-encode worker (`main`, reencode_gain.py lines 257–355)

Side effects are recorded as an event trace; the ledger is threaded as
explicit state.  External collaborators (`os.path.realpath`, the ffmpeg
encode, `safe_replace` success) are oracles supplied by the environment. -/

/-- Observable side effects of a pipeline run. -/
inductive Event
  | log (msg : String)
  | lockAcquire
  | encode (src tmp : String)
  | stripTags (path : String)
  | replaceFile (tmp dst : String)
  | removeTemp (path : String)
  | ledgerRemove (path : String)
  | analyzeTrack
  deriving DecidableEq, Repr

/-- Whether an event mutates the ledger, the lock, or the filesystem
(everything except pure logging). -/
def Event.isMutation : Event → Bool
  | .log _ => false
  | _ => true

/-- Environment of a re-encode run: configuration plus oracles for the
external collaborators. -/
structure Env where
  musicDir : String
  threshold : ℚ
  dryRun : Bool
  maxFiles : Option Int
  realpath : String → String
  encodeOk : String → Bool
  replaceOk : String → Bool

/-- Mutable state threaded through the per-candidate loop. -/
structure RunState where
  ledger : List String
  ok : Nat
  fail : Nat
  done : Nat
  events : List Event
  deriving DecidableEq, Repr

/-- The safety check of reencode_gain.py lines 290–298:
`norm_path.startswith(norm_music + os.sep) or norm_path == norm_music`
on the `os.path.realpath`-resolved forms. -/
def isUnderMusic (env : Env) (path : String) : Bool :=
  let norm_music := env.realpath env.musicDir
  let norm_path := env.realpath path
  pyStartsWith norm_path (norm_music ++ "/") || norm_path == norm_music

/-- One iteration of the per-candidate loop (reencode_gain.py lines 284–339). -/
def processCandidate (env : Env) (st : RunState) (cand : String × ℚ) : RunState :=
  let path := cand.1
  let st := { st with done := st.done + 1 }
  if env.dryRun then
    { st with events := st.events ++ [Event.log ("[DRY] " ++ path)] }
  else if !isUnderMusic env path then
    { st with events :=
        st.events ++ [Event.log ("[WARN] Skipping outside MUSIC_DIR: " ++ path)] }
  else
    let out_tmp := path ++ ".reenc.tmp.mp3"
    let st := { st with events := st.events ++ [Event.encode path out_tmp] }
    if !env.encodeOk path then
      { st with fail := st.fail + 1,
                events := st.events ++
                  [Event.log ("[ERROR] ffmpeg failed: " ++ path), Event.removeTemp out_tmp] }
    else
      let st := { st with events := st.events ++ [Event.stripTags out_tmp] }
      if !env.replaceOk path then
        { st with fail := st.fail + 1,
                  events := st.events ++
                    [Event.log ("[ERROR] Atomic replace failed for: " ++ path),
                     Event.removeTemp out_tmp] }
      else
        let st := { st with events := st.events ++ [Event.replaceFile out_tmp path] }
        let st := { st with ledger := remove_from_processed_list path st.ledger,
                            events := st.events ++ [Event.ledgerRemove path] }
        { st with ok := st.ok + 1,
                  events := st.events ++ [Event.log ("[INFO] Re-encoded: " ++ path)] }

/-- Python `candidates[:n]`, including negative-`n` slicing. -/
def pySliceTake (n : Int) (l : List (String × ℚ)) : List (String × ℚ) :=
  if 0 ≤ n then l.take n.toNat else l.take (l.length - (-n).toNat)

/-- Result of a re-encode run. -/
structure RunResult where
  exit : Nat
  grandTotal : Nat
  batchTotal : Nat
  state : RunState
  deriving DecidableEq, Repr

/-- The capped batch of `main` (reencode_gain.py lines 263–268):
`all_candidates[:MAX_FILES_INT]` when a cap is set, all candidates
otherwise. -/
def reencodeCandidates (env : Env) (ledger0 : List String) : List (String × ℚ) :=
  match env.maxFiles with
  | some n => pySliceTake n (list_candidates_from_processed ledger0 env.threshold)
  | none => list_candidates_from_processed ledger0 env.threshold

/-- `main` (reencode_gain.py lines 257–355): select candidates, cap the
batch, loop, then report.  Returns the process exit code together with
the final state. -/
def reencodeMain (env : Env) (ledger0 : List String) : RunResult :=
  let candidates := reencodeCandidates env ledger0
  let st0 : RunState :=
    { ledger := ledger0, ok := 0, fail := 0, done := 0,
      events := [Event.log "Starting re-encode scan"] }
  if candidates.length = 0 then
    { exit := 0,
      grandTotal := (list_candidates_from_processed ledger0 env.threshold).length,
      batchTotal := candidates.length, state := st0 }
  else
    let st := candidates.foldl (processCandidate env) st0
    if env.dryRun then
      { exit := 0,
        grandTotal := (list_candidates_from_processed ledger0 env.threshold).length,
        batchTotal := candidates.length, state := st }
    else
      { exit := if st.fail = 0 then 0 else 3,
        grandTotal := (list_candidates_from_processed ledger0 env.threshold).length,
        batchTotal := candidates.length, state := st }

/-! ### Configuration fallbacks (reencode_gain.py lines 61–69) -/

/-- `GAIN_THRESHOLD`: `float(THRESH_STR)`, falling back to `5.0` when the
conversion raises `ValueError`. -/
def gainThresholdOf (s : String) : ℚ :=
  match parseFloat s with
  | some q => q
  | none => 5

/-- `MAX_FILES_INT`: `int(MAX_FILES) if MAX_FILES else None`, falling
back to `None` when the conversion raises `ValueError`. -/
def maxFilesIntOf (s : String) : Option Int :=
  if s = "" then none else parseIntPy s

/-! ### The analyze script (`force_plex_analyze.py`) -/

/-- `acquire_lock` (force_plex_analyze.py lines 62–72): a non-blocking
`flock(LOCK_EX | LOCK_NB)` attempt, which succeeds exactly when no other
run holds the lock. -/
def acquire_lock (alreadyHeld : Bool) : Bool :=
  !alreadyHeld

/-- Environment of an analyze run: configuration plus oracles for the
Plex server and the per-track analyze calls; `interruptAt = some k`
means a `KeyboardInterrupt` arrives when `k` tracks have been processed. -/
structure PlexEnv where
  hasUrl : Bool
  hasToken : Bool
  lockHeld : Bool
  plexOnline : Bool
  connectOk : Bool
  sectionOk : Bool
  tracks : List Bool
  interruptAt : Option Nat

/-- Outcome of the per-track loop. -/
structure LoopOut where
  ok : Nat
  fail : Nat
  total : Nat
  interrupted : Bool
  events : List Event
  deriving DecidableEq, Repr

/-- The per-track analyze loop (force_plex_analyze.py lines 140–166):
each track's analyze either succeeds or fails and is counted; a
`KeyboardInterrupt` stops the loop. -/
def plexLoop : List Bool → Option Nat → LoopOut
  | [], _ => { ok := 0, fail := 0, total := 0, interrupted := false, events := [] }
  | _ :: _, some 0 => { ok := 0, fail := 0, total := 0, interrupted := true, events := [] }
  | t :: rest, intr =>
    let tail := plexLoop rest (intr.map (fun n => n - 1))
    { ok := (if t then 1 else 0) + tail.ok,
      fail := (if t then 0 else 1) + tail.fail,
      total := 1 + tail.total,
      interrupted := tail.interrupted,
      events := Event.analyzeTrack :: tail.events }

/-- Result of an analyze run. -/
structure PlexResult where
  exit : Nat
  ok : Nat
  fail : Nat
  total : Nat
  events : List Event
  deriving DecidableEq, Repr

/-- `main` (force_plex_analyze.py lines 99–169): config check, lock
acquisition, server checks, then the per-track loop; `KeyboardInterrupt`
during the loop yields exit code 130. -/
def forcePlexMain (env : PlexEnv) : PlexResult :=
  if !(env.hasUrl && env.hasToken) then
    { exit := 1, ok := 0, fail := 0, total := 0,
      events := [Event.log "ERROR: Missing PLEX_URL/PLEX_TOKEN"] }
  else if !acquire_lock env.lockHeld then
    { exit := 0, ok := 0, fail := 0, total := 0,
      events := [Event.log "Another instance is already running; exiting."] }
  else if !env.plexOnline then
    { exit := 2, ok := 0, fail := 0, total := 0, events := [Event.lockAcquire] }
  else if !env.connectOk then
    { exit := 3, ok := 0, fail := 0, total := 0, events := [Event.lockAcquire] }
  else if !env.sectionOk then
    { exit := 4, ok := 0, fail := 0, total := 0, events := [Event.lockAcquire] }
  else
    let out := plexLoop env.tracks env.interruptAt
    { exit := if out.interrupted then 130 else 0,
      ok := out.ok, fail := out.fail, total := out.total,
      events := Event.lockAcquire :: out.events }

/-! ### Specification-side definitions

`selectSpec` restates §4.2 of the design document in its own words —
parse every well-formed record, then keep a record iff
`abs(gain) >= threshold` and the path's extension matches the target
media type case-insensitively, preserving ledger order — to be compared
with the source-derived `list_candidates_from_processed`. -/

/-- A well-formed ledger record as the spec describes it:
`(path, gain)` from a line with exactly three tab-separated fields whose
gain field parses. -/
def parseRecord (line : String) : Option (String × ℚ) :=
  match fields line with
  | [_ts, path, gainStr] => (parseFloat gainStr).map (fun g => (path, g))
  | _ => none

/-- Candidate selection as worded by the spec. -/
def selectSpec (lines : List String) (threshold : ℚ) : List (String × ℚ) :=
  (lines.filterMap parseRecord).filter
    (fun c => decide (threshold ≤ |c.2|) && pyEndsWith (pyLower c.1) ".mp3")

/-- The contribution of one ledger line to the candidate list: at most
one `(path, gain)` pair. -/
def candidateOfLine (t : ℚ) (line : String) : List (String × ℚ) :=
  match fields line with
  | [_ts, path, gainStr] =>
    match parseFloat gainStr with
    | some gain =>
      if decide (t ≤ |gain|) && pyEndsWith (pyLower path) ".mp3" then [(path, gain)]
      else []
    | none => []
  | _ => []

/-! ### Concrete fixtures used by witnesses and counterexamples -/

/-- Ledger line for `/music/a.mp3`, gain 6.2 dB. -/
def lineA : String := "t1\t/music/a.mp3\t6.2\n"

/-- Ledger line for `/music/b.mp3`, gain −7.5 dB. -/
def lineB : String := "t2\t/music/b.mp3\t-7.5\n"

/-- Ledger line for `/music/c.mp3`, gain 5.0 dB. -/
def lineC : String := "t3\t/music/c.mp3\t5.0\n"

/-- A malformed ledger line (two fields only). -/
def lineBad : String := "bad line\n"

/-- An environment in which every external step succeeds except the
encode of `/music/b.mp3`. -/
def envB : Env :=
  { musicDir := "/music", threshold := 5, dryRun := false, maxFiles := none,
    realpath := fun p => p,
    encodeOk := fun p => p != "/music/b.mp3",
    replaceOk := fun _ => true }

/-- `envB` with the dry-run flag raised. -/
def envBDry : Env := { envB with dryRun := true }

/-- An analyze-script environment in which another run holds the lock. -/
def penvLocked : PlexEnv :=
  { hasUrl := true, hasToken := true, lockHeld := true, plexOnline := true,
    connectOk := true, sectionOk := true, tracks := [true, true], interruptAt := none }

/-- An analyze-script environment interrupted after one of three tracks. -/
def penvIntr : PlexEnv :=
  { hasUrl := true, hasToken := true, lockHeld := false, plexOnline := true,
    connectOk := true, sectionOk := true, tracks := [true, true, false],
    interruptAt := some 1 }

/-- A ledger line whose path lies outside the media root but would
otherwise be selected (gain 9.0 dB, `.mp3` extension). -/
def lineOut : String := "t9\t/etc/evil.mp3\t9.0\n"

/-- A concrete filesystem for exercising `safe_replace`: a temp file on
another device plus old content at the destination. -/
def fsW : Fs := fun p =>
  if p = "/tmp/work.reenc.tmp.mp3" then some "new-audio"
  else if p = "/music/a.mp3" then some "old-audio"
  else none

/-! ## Helper lemmas -/

/-- The keep decision of ledger compaction, characterised: a line is kept
iff it is not a well-formed (three-field) record whose path field is the
removed path. -/
theorem keepLine_eq_true_iff (p l : String) :
    keepLine p l = true ↔ ¬((fields l).length = 3 ∧ (fields l).get? 1 = some p) := by
  unfold keepLine
  rcases hf : fields l with _ | ⟨a, _ | ⟨b, _ | ⟨c, _ | ⟨d, tl⟩⟩⟩⟩ <;>
    simp [hf, bne_iff_ne]

/-- One step of candidate selection: the head line contributes
`candidateOfLine`, the rest is selected recursively. -/
theorem candidates_cons (line : String) (rest : List String) (t : ℚ) :
    list_candidates_from_processed (line :: rest) t
      = candidateOfLine t line ++ list_candidates_from_processed rest t := by
  simp only [list_candidates_from_processed, candidateOfLine]
  rcases hf : fields line with _ | ⟨x, _ | ⟨y, _ | ⟨z, _ | ⟨w, tl⟩⟩⟩⟩ <;>
    simp only [hf, List.nil_append]
  rcases hg : parseFloat z with _ | q <;> simp only [List.nil_append]
  split <;> simp

/-- Candidate selection distributes over ledger concatenation. -/
theorem candidates_append (a b : List String) (t : ℚ) :
    list_candidates_from_processed (a ++ b) t
      = list_candidates_from_processed a t ++ list_candidates_from_processed b t := by
  induction a with
  | nil => rfl
  | cons line rest ih =>
    rw [List.cons_append, candidates_cons, candidates_cons, ih, List.append_assoc]

/-! ## Helper lemmas about the worker loop -/

/-- With the dry-run flag raised, one loop iteration only counts the
candidate and logs it. -/
theorem processCandidate_dry (env : Env) (st : RunState) (c : String × ℚ)
    (h : env.dryRun = true) :
    processCandidate env st c
      = { st with done := st.done + 1,
                  events := st.events ++ [Event.log ("[DRY] " ++ c.1)] } := by
  unfold processCandidate
  rw [h]
  rfl

/-- A dry-run loop never changes the ledger. -/
theorem foldl_dry_ledger (env : Env) (h : env.dryRun = true) :
    ∀ (cs : List (String × ℚ)) (st : RunState),
      (cs.foldl (processCandidate env) st).ledger = st.ledger := by
  intro cs
  induction cs with
  | nil => intro st; rfl
  | cons c rest ih =>
    intro st
    rw [List.foldl_cons, processCandidate_dry env st c h]
    exact ih _

/-- A dry-run loop adds only log events. -/
theorem foldl_dry_events (env : Env) (h : env.dryRun = true) :
    ∀ (cs : List (String × ℚ)) (st : RunState),
      (∀ e ∈ st.events, e.isMutation = false) →
      ∀ e ∈ (cs.foldl (processCandidate env) st).events, e.isMutation = false := by
  intro cs
  induction cs with
  | nil => intro st hst; exact hst
  | cons c rest ih =>
    intro st hst
    rw [List.foldl_cons, processCandidate_dry env st c h]
    apply ih
    intro e he
    rcases List.mem_append.mp he with h1 | h2
    · exact hst e h1
    · rw [List.mem_singleton.mp h2]
      rfl

/-- No loop iteration ever emits a lock-acquisition event. -/
theorem lock_not_in_processCandidate (env : Env) (st : RunState) (c : String × ℚ)
    (h : Event.lockAcquire ∉ st.events) :
    Event.lockAcquire ∉ (processCandidate env st c).events := by
  unfold processCandidate
  dsimp only
  split_ifs <;> simp_all

/-- The whole worker loop never emits a lock-acquisition event. -/
theorem lock_not_in_foldl (env : Env) :
    ∀ (cs : List (String × ℚ)) (st : RunState), Event.lockAcquire ∉ st.events →
      Event.lockAcquire ∉ (cs.foldl (processCandidate env) st).events := by
  intro cs
  induction cs with
  | nil => intro st h; exact h
  | cons c rest ih =>
    intro st h
    rw [List.foldl_cons]
    exact ih _ (lock_not_in_processCandidate env st c h)

/-- The batch size reported by `main` is the capped candidate count. -/
theorem reencodeMain_batchTotal (env : Env) (ledger : List String) :
    (reencodeMain env ledger).batchTotal = (reencodeCandidates env ledger).length := by
  unfold reencodeMain
  dsimp only
  split_ifs <;> rfl

/-- The grand total reported by `main` is the uncapped candidate count. -/
theorem reencodeMain_grandTotal (env : Env) (ledger : List String) :
    (reencodeMain env ledger).grandTotal
      = (list_candidates_from_processed ledger env.threshold).length := by
  unfold reencodeMain
  dsimp only
  split_ifs <;> rfl

/-- The per-track analyze loop is interrupted exactly when the interrupt
arrives before the tracks run out. -/
theorem plexLoop_interrupted (ts : List Bool) :
    ∀ k : Nat, (plexLoop ts (some k)).interrupted = decide (k < ts.length) := by
  induction ts with
  | nil => intro k; simp [plexLoop]
  | cons t rest ih =>
    intro k
    cases k with
    | zero => simp [plexLoop]
    | succ n =>
      simp [plexLoop, ih n, Nat.succ_lt_succ_iff]

/-! ## Claim theorems -/

/-- C1: For every ledger state and every path `p`, ledger compaction
(`remove_from_processed_list`) produces a sublist of the original lines
(so every kept line — well-formed records with a different path and
malformed lines alike — appears verbatim and in original order), keeps
every line that is not a well-formed record with path field `p` with its
exact multiplicity, and contains no well-formed record whose path field
equals `p`. -/
theorem ledger_compaction_correct (p : String) (lines : List String) :
    (remove_from_processed_list p lines).Sublist lines ∧
    (∀ l : String, (fields l).length = 3 ∧ (fields l).get? 1 = some p →
      l ∉ remove_from_processed_list p lines) ∧
    (∀ l : String, ¬((fields l).length = 3 ∧ (fields l).get? 1 = some p) →
      (remove_from_processed_list p lines).count l = lines.count l) := by
  refine ⟨List.filter_sublist lines, ?_, ?_⟩
  · intro l hl hmem
    rw [remove_from_processed_list, List.mem_filter, keepLine_eq_true_iff] at hmem
    exact hmem.2 hl
  · intro l hl
    rw [remove_from_processed_list]
    exact List.count_filter ((keepLine_eq_true_iff p l).mpr hl)

/-- Witness for C1 at a concrete ledger: the record for `/music/a.mp3`
is gone after compaction, while the malformed line keeps its
multiplicity. -/
theorem ledger_compaction_correct_witness :
    lineA ∉ remove_from_processed_list "/music/a.mp3" [lineA, lineBad, lineB] ∧
    (remove_from_processed_list "/music/a.mp3" [lineA, lineBad, lineB]).count lineBad
      = ([lineA, lineBad, lineB] : List String).count lineBad :=
  ⟨(ledger_compaction_correct "/music/a.mp3" [lineA, lineBad, lineB]).2.1 lineA (by decide),
   (ledger_compaction_correct "/music/a.mp3" [lineA, lineBad, lineB]).2.2 lineBad (by decide)⟩

/-- C9: Ledger compaction removes a three-field line by path equality
alone, whatever its gain field holds — even a gain that does not parse —
while candidate selection silently skips such a line: it contributes no
candidate and raises no error. -/
theorem compaction_by_path_alone (ts p gstr line : String) (t : ℚ)
    (pre post : List String)
    (hf : fields line = [ts, p, gstr]) (hg : parseFloat gstr = none) :
    remove_from_processed_list p (pre ++ line :: post)
      = remove_from_processed_list p pre ++ remove_from_processed_list p post ∧
    list_candidates_from_processed (pre ++ line :: post) t
      = list_candidates_from_processed pre t ++ list_candidates_from_processed post t := by
  constructor
  · rw [remove_from_processed_list, List.filter_append, List.filter_cons]
    have hkeep : keepLine p line = false := by
      unfold keepLine
      rw [hf]
      simp
    rw [hkeep]
    rfl
  · rw [candidates_append, candidates_cons]
    have hnone : candidateOfLine t line = [] := by
      unfold candidateOfLine
      rw [hf]
      simp [hg]
    rw [hnone, List.nil_append]

/-- Witness for C9: a three-field line whose gain field is the
unparseable string `"loud"` is removed by compaction yet never selected. -/
theorem compaction_by_path_alone_witness :
    remove_from_processed_list "/music/a.mp3"
        [lineB, "t9\t/music/a.mp3\tloud", lineC]
      = remove_from_processed_list "/music/a.mp3" [lineB]
          ++ remove_from_processed_list "/music/a.mp3" [lineC] ∧
    list_candidates_from_processed [lineB, "t9\t/music/a.mp3\tloud", lineC] 5
      = list_candidates_from_processed [lineB] 5
          ++ list_candidates_from_processed [lineC] 5 :=
  compaction_by_path_alone "t9" "/music/a.mp3" "loud" "t9\t/music/a.mp3\tloud" 5
    [lineB] [lineC] (by decide) (by decide)

/-- A line's candidate contribution, phrased through the spec's record
parser: the line yields its parsed record exactly when the record passes
the threshold-and-extension test. -/
theorem candidateOfLine_eq_parseRecord (t : ℚ) (line : String) :
    candidateOfLine t line
      = match parseRecord line with
        | some c =>
          if decide (t ≤ |c.2|) && pyEndsWith (pyLower c.1) ".mp3" then [c] else []
        | none => [] := by
  unfold candidateOfLine parseRecord
  rcases hf : fields line with _ | ⟨x, _ | ⟨y, _ | ⟨z, _ | ⟨w, tl⟩⟩⟩⟩ <;>
    simp only [hf, Option.map_none, Option.map_some]
  rcases hg : parseFloat z with _ | q <;> simp [hg]

/-- C6: Candidate selection equals the spec's description of `select` —
parse every well-formed record, keep a record iff `abs(gain) >= t` and
the path's extension is `.mp3` case-insensitively, preserving ledger
order — and at the threshold boundary a gain of exactly 5.00 against
threshold 5.0 is included while 4.99 is excluded. -/
theorem candidate_selection_spec (lines : List String) (t : ℚ) :
    list_candidates_from_processed lines t = selectSpec lines t ∧
    list_candidates_from_processed ["t\t/music/x.mp3\t5.00"] 5 = [("/music/x.mp3", 5)] ∧
    list_candidates_from_processed ["t\t/music/x.mp3\t4.99"] 5 = [] := by
  refine ⟨?_, by decide, by decide⟩
  induction lines with
  | nil => rfl
  | cons line rest ih =>
    rw [candidates_cons, candidateOfLine_eq_parseRecord]
    simp only [selectSpec, List.filterMap_cons] at ih ⊢
    rcases hr : parseRecord line with _ | c
    · simpa using ih
    · simp only [List.filter_cons]
      by_cases hc : (decide (t ≤ |c.2|) && pyEndsWith (pyLower c.1) ".mp3") = true
      · simp [hc, ih]
      · simp [hc, ih]

/-- C2: With three candidates of which only the second one's encode step
fails, the run is not aborted: all three candidates are visited, the
run finishes with `ok = 2` and `fail = 1`, the second candidate's ledger
line is still present afterwards, and the lines of the first and third
candidates have been removed. -/
theorem per_item_isolation :
    (reencodeMain envB [lineA, lineB, lineC]).batchTotal = 3 ∧
    (reencodeMain envB [lineA, lineB, lineC]).state.done = 3 ∧
    (reencodeMain envB [lineA, lineB, lineC]).state.ok = 2 ∧
    (reencodeMain envB [lineA, lineB, lineC]).state.fail = 1 ∧
    (reencodeMain envB [lineA, lineB, lineC]).state.ledger = [lineB] := by
  decide

/-- C5: When the primary atomic rename fails with EXDEV and the fallback
runs instead (copy the temp to a sibling-of-final temp name, rename that
into place, remove the original temp), the resulting filesystem agrees
with the primary path everywhere except that the sibling temp name is
guaranteed clear; in particular the final path carries the same content
as under the primary rename, and neither temp file remains. -/
theorem exdev_fallback_equiv (fs : Fs) (src dst : String)
    (hsd : src ≠ dst) (has : altTmpName dst ≠ src) (had : altTmpName dst ≠ dst) :
    (∀ p, safe_replace_exdev fs src dst p
        = if p = altTmpName dst then none else safe_replace_primary fs src dst p) ∧
    safe_replace_exdev fs src dst dst = safe_replace_primary fs src dst dst ∧
    safe_replace_exdev fs src dst src = none ∧
    safe_replace_exdev fs src dst (altTmpName dst) = none := by
  have key : ∀ p, safe_replace_exdev fs src dst p
      = if p = altTmpName dst then none else safe_replace_primary fs src dst p := by
    intro p
    unfold safe_replace_exdev safe_replace_primary osRemove osReplace copy2
    by_cases hps : p = src
    · subst hps
      simp [hsd, Ne.symm has]
    · by_cases hpd : p = dst
      · subst hpd
        simp [hps, Ne.symm had, has]
      · by_cases hpa : p = altTmpName dst
        · subst hpa
          simp [hps, hpd]
        · simp [hps, hpd, hpa]
  refine ⟨key, ?_, ?_, ?_⟩
  · rw [key dst, if_neg (fun h => had h.symm)]
  · rw [key src, if_neg (fun h => has h.symm), safe_replace_primary, osReplace,
      if_neg hsd, if_pos rfl]
  · rw [key (altTmpName dst), if_pos rfl]

/-- Witness for C5 at a concrete filesystem: the fallback leaves the new
audio at the destination, exactly as the primary rename would, and both
temp names empty. -/
theorem exdev_fallback_equiv_witness :
    safe_replace_exdev fsW "/tmp/work.reenc.tmp.mp3" "/music/a.mp3" "/music/a.mp3"
      = safe_replace_primary fsW "/tmp/work.reenc.tmp.mp3" "/music/a.mp3" "/music/a.mp3" ∧
    safe_replace_exdev fsW "/tmp/work.reenc.tmp.mp3" "/music/a.mp3" "/tmp/work.reenc.tmp.mp3"
      = none ∧
    safe_replace_exdev fsW "/tmp/work.reenc.tmp.mp3" "/music/a.mp3"
        (altTmpName "/music/a.mp3")
      = none :=
  (exdev_fallback_equiv fsW "/tmp/work.reenc.tmp.mp3" "/music/a.mp3"
    (by decide) (by decide) (by decide)).2

/-- C7: With the dry-run flag enabled a run exits successfully, mutates
neither the ledger nor the lock nor any file (its whole event trace is
logging), and the candidate count it reports for the batch equals the
count the same run would report with dry-run disabled. -/
theorem dry_run_purity (env : Env) (ledger : List String) (h : env.dryRun = true) :
    (reencodeMain env ledger).exit = 0 ∧
    (reencodeMain env ledger).state.ledger = ledger ∧
    (∀ e ∈ (reencodeMain env ledger).state.events, e.isMutation = false) ∧
    (reencodeMain env ledger).batchTotal
      = (reencodeMain { env with dryRun := false } ledger).batchTotal := by
  have hcand : reencodeCandidates { env with dryRun := false } ledger
      = reencodeCandidates env ledger := rfl
  refine ⟨?_, ?_, ?_, ?_⟩
  · by_cases h0 : (reencodeCandidates env ledger).length = 0 <;>
      simp [reencodeMain, h0, h]
  · by_cases h0 : (reencodeCandidates env ledger).length = 0
    · simp [reencodeMain, h0]
    · simp only [reencodeMain, h0, if_neg, if_false]
      simp [h, foldl_dry_ledger env h]
  · by_cases h0 : (reencodeCandidates env ledger).length = 0
    · simp [reencodeMain, h0, Event.isMutation]
    · simp only [reencodeMain, h0, if_neg, if_false]
      simp only [h, if_true]
      apply foldl_dry_events env h
      intro e he
      rw [List.mem_singleton.mp he]
      rfl
  · rw [reencodeMain_batchTotal, reencodeMain_batchTotal, hcand]

/-- Witness for C7 on a dry-run over a three-line ledger. -/
theorem dry_run_purity_witness :
    (reencodeMain envBDry [lineA, lineB, lineC]).exit = 0 ∧
    (reencodeMain envBDry [lineA, lineB, lineC]).state.ledger = [lineA, lineB, lineC] ∧
    (∀ e ∈ (reencodeMain envBDry [lineA, lineB, lineC]).state.events,
      e.isMutation = false) ∧
    (reencodeMain envBDry [lineA, lineB, lineC]).batchTotal
      = (reencodeMain { envBDry with dryRun := false } [lineA, lineB, lineC]).batchTotal :=
  dry_run_purity envBDry [lineA, lineB, lineC] (by decide)

/-- C8 counterexample: a run whose only candidate resolves outside the
media root is selected into the batch yet finishes with `fail = 0` and
exit code 0 — the outside-root skip is not treated like a per-candidate
failure, which would be recorded in the fail counter and yield exit
code 3. -/
theorem outside_root_not_a_failure_cex :
    (reencodeMain envB [lineOut]).batchTotal = 1 ∧
    (reencodeMain envB [lineOut]).state.fail = 0 ∧
    (reencodeMain envB [lineOut]).exit = 0 := by
  decide

/-- C8 amended: A candidate whose resolved path does not lie within the
resolved media root is skipped with only a warning logged: the iteration
performs no encode, no replace, and no ledger update, leaves the ok and
fail counters untouched (the skip is not recorded as a per-candidate
failure), and the loop continues with the remaining candidates. -/
theorem outside_root_skip (env : Env) (st : RunState) (path : String) (gain : ℚ)
    (hdry : env.dryRun = false) (hout : isUnderMusic env path = false) :
    processCandidate env st (path, gain)
      = { st with done := st.done + 1,
                  events := st.events
                    ++ [Event.log ("[WARN] Skipping outside MUSIC_DIR: " ++ path)] } ∧
    (processCandidate env st (path, gain)).ledger = st.ledger ∧
    (processCandidate env st (path, gain)).ok = st.ok ∧
    (processCandidate env st (path, gain)).fail = st.fail ∧
    ∀ rest : List (String × ℚ),
      ((path, gain) :: rest).foldl (processCandidate env) st
        = rest.foldl (processCandidate env) (processCandidate env st (path, gain)) := by
  have heq : processCandidate env st (path, gain)
      = { st with done := st.done + 1,
                  events := st.events
                    ++ [Event.log ("[WARN] Skipping outside MUSIC_DIR: " ++ path)] } := by
    simp [processCandidate, hdry, hout]
  exact ⟨heq, by rw [heq], by rw [heq], by rw [heq], fun rest => List.foldl_cons ..⟩

/-- Witness for C8: a ledger entry pointing at `/etc/evil.mp3` is skipped
without touching the ledger or the failure counter. -/
theorem outside_root_skip_witness :
    (processCandidate envB ⟨[lineA], 0, 0, 0, []⟩ ("/etc/evil.mp3", 6)).ledger = [lineA] ∧
    (processCandidate envB ⟨[lineA], 0, 0, 0, []⟩ ("/etc/evil.mp3", 6)).ok = 0 ∧
    (processCandidate envB ⟨[lineA], 0, 0, 0, []⟩ ("/etc/evil.mp3", 6)).fail = 0 :=
  ⟨(outside_root_skip envB ⟨[lineA], 0, 0, 0, []⟩ "/etc/evil.mp3" 6
      (by decide) (by decide)).2.1,
   (outside_root_skip envB ⟨[lineA], 0, 0, 0, []⟩ "/etc/evil.mp3" 6
      (by decide) (by decide)).2.2.1,
   (outside_root_skip envB ⟨[lineA], 0, 0, 0, []⟩ "/etc/evil.mp3" 6
      (by decide) (by decide)).2.2.2.1⟩

/-- C3 counterexample: a concrete re-encode run loads the ledger,
selects candidates and even deletes ledger entries, yet its event trace
contains no lock acquisition — the remediation pipeline never acquires
the single-instance advisory lock. -/
theorem reencode_runs_without_lock_cex :
    0 < (reencodeMain envB [lineA, lineB, lineC]).state.ok ∧
    Event.ledgerRemove "/music/a.mp3" ∈ (reencodeMain envB [lineA, lineB, lineC]).state.events ∧
    Event.lockAcquire ∉ (reencodeMain envB [lineA, lineB, lineC]).state.events := by
  decide

/-- C3 amended: the non-blocking single-instance lock belongs to the
analyze script, not to the re-encode pipeline.  A re-encode run never
acquires the lock, while in the analyze script `acquire_lock` returns
false when another run already holds the lock, in which case that run
exits with the success status 0 having performed zero mutations. -/
theorem lock_semantics_amended :
    (∀ (env : Env) (ledger : List String),
      Event.lockAcquire ∉ (reencodeMain env ledger).state.events) ∧
    (∀ penv : PlexEnv, penv.hasUrl = true → penv.hasToken = true →
      penv.lockHeld = true →
      acquire_lock penv.lockHeld = false ∧
      (forcePlexMain penv).exit = 0 ∧
      ∀ e ∈ (forcePlexMain penv).events, e.isMutation = false) := by
  constructor
  · intro env ledger
    have hst0 : Event.lockAcquire ∉ [Event.log "Starting re-encode scan"] := by decide
    unfold reencodeMain
    dsimp only
    split_ifs <;> first
      | exact hst0
      | exact lock_not_in_foldl env _ _ hst0
  · intro penv h1 h2 h3
    refine ⟨by rw [h3]; rfl, ?_, ?_⟩ <;>
      simp [forcePlexMain, acquire_lock, h1, h2, h3, Event.isMutation]

/-- Witness for the amended C3: a concrete run of each script. -/
theorem lock_semantics_amended_witness :
    Event.lockAcquire ∉ (reencodeMain envB [lineA, lineB, lineC]).state.events ∧
    acquire_lock penvLocked.lockHeld = false ∧
    (forcePlexMain penvLocked).exit = 0 :=
  ⟨lock_semantics_amended.1 envB [lineA, lineB, lineC],
   (lock_semantics_amended.2 penvLocked rfl rfl rfl).1,
   (lock_semantics_amended.2 penvLocked rfl rfl rfl).2.1⟩

/-- C4: Exit-code taxonomy of the two entry points.  The re-encode
pipeline exits 0 on dry-run, on an empty batch and on a run with no
failed candidate, and exits 3 when at least one candidate failed; the
analyze script exits 0 when the lock is already held and 130 when a
keyboard interrupt arrives during its per-track loop. -/
theorem process_exit_codes (env : Env) (ledger : List String) (penv : PlexEnv) :
    (env.dryRun = true → (reencodeMain env ledger).exit = 0) ∧
    ((reencodeMain env ledger).batchTotal = 0 → (reencodeMain env ledger).exit = 0) ∧
    ((reencodeMain env ledger).state.fail = 0 → (reencodeMain env ledger).exit = 0) ∧
    (env.dryRun = false → 0 < (reencodeMain env ledger).state.fail →
      (reencodeMain env ledger).exit = 3) ∧
    (penv.hasUrl = true → penv.hasToken = true → penv.lockHeld = true →
      (forcePlexMain penv).exit = 0) ∧
    (penv.hasUrl = true → penv.hasToken = true → penv.lockHeld = false →
      penv.plexOnline = true → penv.connectOk = true → penv.sectionOk = true →
      (∃ k, penv.interruptAt = some k ∧ k < penv.tracks.length) →
      (forcePlexMain penv).exit = 130) := by
  refine ⟨?_, ?_, ?_, ?_, ?_, ?_⟩
  · intro hd
    by_cases h0 : (reencodeCandidates env ledger).length = 0 <;>
      simp [reencodeMain, h0, hd]
  · rw [reencodeMain_batchTotal]
    intro h0
    simp [reencodeMain, h0]
  · by_cases h0 : (reencodeCandidates env ledger).length = 0
    · simp [reencodeMain, h0]
    · by_cases hd : env.dryRun = true
      · simp [reencodeMain, h0, hd]
      · simp only [reencodeMain, h0, if_neg, if_false]
        simp only [Bool.not_eq_true] at hd
        simp only [hd, Bool.false_eq_true, if_false]
        intro hfail
        simp [hfail]
  · intro hd hfail
    by_cases h0 : (reencodeCandidates env ledger).length = 0
    · rw [reencodeMain] at hfail
      dsimp only at hfail
      rw [if_pos h0] at hfail
      simp at hfail
    · rw [reencodeMain] at hfail ⊢
      dsimp only at hfail ⊢
      rw [if_neg h0] at hfail ⊢
      rw [hd] at hfail ⊢
      simp only [Bool.false_eq_true, if_false] at hfail ⊢
      have : ¬((reencodeCandidates env ledger).foldl (processCandidate env)
          { ledger := ledger, ok := 0, fail := 0, done := 0,
            events := [Event.log "Starting re-encode scan"] }).fail = 0 :=
        Nat.pos_iff_ne_zero.mp hfail
      simp [this]
  · intro h1 h2 h3
    simp [forcePlexMain, acquire_lock, h1, h2, h3]
  · rintro h1 h2 h3 h4 h5 h6 ⟨k, hk, hlt⟩
    simp only [forcePlexMain, acquire_lock, h1, h2, h3, h4, h5, h6, Bool.and_self,
      Bool.not_true, Bool.not_false, Bool.false_eq_true, if_false, if_true]
    rw [hk, plexLoop_interrupted penv.tracks k]
    simp [hlt]

/-- Witness for C4: each exit code realised at a concrete run. -/
theorem process_exit_codes_witness :
    (reencodeMain envBDry [lineA, lineB, lineC]).exit = 0 ∧
    (reencodeMain envB [lineA, lineB, lineC]).exit = 3 ∧
    (forcePlexMain penvLocked).exit = 0 ∧
    (forcePlexMain penvIntr).exit = 130 :=
  ⟨(process_exit_codes envBDry [lineA, lineB, lineC] penvLocked).1 (by decide),
   (process_exit_codes envB [lineA, lineB, lineC] penvLocked).2.2.2.1
     (by decide) (by decide),
   (process_exit_codes envBDry [] penvLocked).2.2.2.2.1 rfl rfl rfl,
   (process_exit_codes envBDry [] penvIntr).2.2.2.2.2 rfl rfl rfl rfl rfl rfl
     ⟨1, rfl, by decide⟩⟩

/-- C10: Malformed numeric configuration never aborts a run.  A gain
threshold string that does not parse as a float yields the default
threshold 5.0, and a non-empty candidate-cap string that does not parse
as an integer leaves the cap unset, in which case the batch covers every
selected candidate. -/
theorem config_fallbacks (s1 s2 : String) (env : Env) (ledger : List String)
    (h1 : parseFloat s1 = none) (h2 : s2 ≠ "") (h3 : parseIntPy s2 = none) :
    gainThresholdOf s1 = 5 ∧
    maxFilesIntOf s2 = none ∧
    (reencodeMain { env with maxFiles := maxFilesIntOf s2 } ledger).batchTotal
      = (reencodeMain { env with maxFiles := maxFilesIntOf s2 } ledger).grandTotal := by
  have hm : maxFilesIntOf s2 = none := by
    rw [maxFilesIntOf, if_neg h2, h3]
  refine ⟨by simp [gainThresholdOf, h1], hm, ?_⟩
  rw [reencodeMain_batchTotal, reencodeMain_grandTotal]
  show (reencodeCandidates { env with maxFiles := maxFilesIntOf s2 } ledger).length = _
  rw [reencodeCandidates]
  simp only [hm]

/-- Witness for C10 with the unparseable settings `"loud"` and `"many"`. -/
theorem config_fallbacks_witness :
    gainThresholdOf "loud" = 5 ∧
    maxFilesIntOf "many" = none ∧
    (reencodeMain { envB with maxFiles := maxFilesIntOf "many" } [lineA, lineB, lineC]).batchTotal
      = (reencodeMain { envB with maxFiles := maxFilesIntOf "many" }
          [lineA, lineB, lineC]).grandTotal :=
  config_fallbacks "loud" "many" envB [lineA, lineB, lineC]
    (by decide) (by decide) (by decide)

end Gainhound
